import Mathlib

/-!
Verification of the `smartconfig` registry core.

The Python source keeps a process-wide configuration tree
(`_registry.global_configuration`), a set of claimed dotted paths
(`_registry.used_paths`) and a path-to-entry owner map
(`Registry.configuration_for_module`).  A configuration entry class is
registered by `_ConfigEntryMeta._register_entry` (conflict check, merge of the
class-body defaults into the tree, claim of the path), validated by
`_ConfigEntryMeta._check_undefined_entries`, and thereafter serves attribute
reads live from the shared tree via `_ConfigEntryMeta.__getattribute__`.

Python dictionaries are embedded as association lists with unique keys kept in
insertion order; a node of the configuration tree is either a nested dictionary
or a plain (non-dictionary) value.  Machine-level behaviour that raises a
non-`smartconfig` exception (calling `.setdefault` on a non-dictionary value,
testing membership in a non-container value, or assigning an item to a
non-dictionary value) is embedded as the `none` / `pyTypeError` outcome; the
membership test itself on a non-dictionary container value (e.g. the substring
test on a str leaf) follows Python in succeeding silently, via `PyContainer`.
-/

namespace SmartConfig

/-- A node of the configuration tree: either a plain value (any non-dict
Python object, abstracted by `α`) or a nested dictionary, as stored in
`_registry.global_configuration`. -/
inductive Node (α : Type) where
  | value : α → Node α
  | dict : List (String × Node α) → Node α

/-- Dictionary lookup `d[k]` / `d.get(k)`: first entry with the given key. -/
def getEntry : List (String × Node α) → String → Option (Node α)
  | [], _ => none
  | (k, v) :: rest, key => if k = key then some v else getEntry rest key

/-- Dictionary assignment `d[k] = v`: replace the entry if the key is present,
otherwise append it (Python dicts keep insertion order). -/
def setEntry : List (String × Node α) → String → Node α → List (String × Node α)
  | [], key, v => [(key, v)]
  | (k, w) :: rest, key, v =>
      if k = key then (key, v) :: rest else (k, w) :: setEntry rest key v

/-- Errors surfaced by the registry operations, from `exceptions.py`.
`pyTypeError` stands for the non-`smartconfig` `TypeError`/`AttributeError`
Python raises when the merge walk runs into a non-dictionary value. -/
inductive RegError where
  | pathConflict
  | configurationKeyError (attr : String)
  | invalidOperation
  | pyTypeError
deriving DecidableEq

/-- Error kinds of `get_attribute`: `ConfigurationKeyError` for a missing
segment or missing leaf name, `ConfigurationError` for a value found where a
nested namespace was expected (spec section 7). -/
inductive GetErr where
  | configurationKeyError
  | configurationError
deriving DecidableEq

/-- Whether an `Except` result is an error. -/
def isErr : Except ε β → Bool
  | .error _ => true
  | .ok _ => false

/-- Splitting a dotted path into segments, exactly Python's
`path.split(".")` (e.g. `"a.b" ↦ ["a", "b"]`, `"" ↦ [""]`). -/
def splitSegsAux : List Char → List Char → List String
  | [], acc => [String.mk acc.reverse]
  | c :: cs, acc =>
      if c = '.' then String.mk acc.reverse :: splitSegsAux cs []
      else splitSegsAux cs (c :: acc)

/-- Segments of a dotted path: `cls.__path.split(".")` in
`_register_entry` (entry.py line 57). -/
def pathSegments (p : String) : List String :=
  splitSegsAux p.data []

/-- Modelled from the spec: `get_attribute` is imported by entry.py from
`smartconfig._registry` but its definition is not part of the given
`_registry.py`.  Spec section 4.1: walk the tree by path segments; fail with
`ConfigurationKeyError` if any segment is missing or the final leaf mapping
does not contain `name`; a plain value where a nested namespace is expected is
the structural mismatch reported as `ConfigurationError` (section 7), which is
why `_check_undefined_entries` catches both kinds. -/
def walkGet : List (String × Node α) → List String → String → Except GetErr (Node α)
  | d, [], name =>
      match getEntry d name with
      | some v => .ok v
      | none => .error .configurationKeyError
  | d, s :: rest, name =>
      match getEntry d s with
      | some (Node.dict sub) => walkGet sub rest name
      | some (Node.value _) => .error .configurationError
      | none => .error .configurationKeyError

/-- Modelled from the spec: `get_attribute(path, name)` resolves `name` at the
leaf reached by walking the dotted `path` (spec section 4.1). -/
def getAttribute (t : List (String × Node α)) (path name : String) : Except GetErr (Node α) :=
  walkGet t (pathSegments path) name

/-- The write loop of `_register_entry` (entry.py lines 60-63): iterate over
the defaults in order and write each value only if its key is not already
present at the leaf dictionary. -/
def writeDefaults : List (String × Node α) → List (String × Node α) → List (String × Node α)
  | d, [] => d
  | d, (k, v) :: rest =>
      match getEntry d k with
      | some _ => writeDefaults d rest
      | none => writeDefaults (setEntry d k v) rest

/-- Python membership semantics of the (non-dict) values stored at tree
leaves: `containsKey v k` is `none` when `k in v` raises `TypeError` (a
non-container value such as an int), and `some b` when the membership test
returns `b` (e.g. the substring test for a str, element membership for a
list).  Values that support item assignment with string keys are
dictionaries, represented as `Node.dict`, so a `False` membership result on a
`Node.value` means the subsequent assignment raises `TypeError`. -/
class PyContainer (α : Type) where
  containsKey : α → String → Option Bool

/-- Python int values: the membership test `k in v` raises `TypeError`. -/
instance : PyContainer Nat :=
  ⟨fun _ _ => none⟩

/-- The write loop of `_register_entry` (entry.py lines 60-63) when the walk
ended on a non-dict value `v`: for each key in order, `key not in v` either
raises `TypeError` (non-container value), or returns the membership result —
`True` membership skips the write silently and continues, `False` membership
reaches `current_node[key] = value`, which raises `TypeError` on a non-dict.
The result is whether the loop completes without an exception; a completing
loop never mutates anything. -/
def valueWriteLoop [PyContainer α] (v : α) : List (String × Node α) → Bool
  | [] => true
  | (k, _) :: rest =>
      match PyContainer.containsKey v k with
      | none => false
      | some true => valueWriteLoop v rest
      | some false => false

/-- The tree-merge part of `_register_entry` (entry.py lines 55-63): walk the
path segments with `current_node.setdefault(node_name, {})`, then run the
fill-if-absent write loop at the leaf.  `none` embeds a Python crash:
`AttributeError` from `.setdefault` on a non-dict (any non-final non-dict
node), or `TypeError` from the write loop on a final non-dict node (see
`valueWriteLoop`; a final non-dict node whose write loop completes — every
key either absent from an empty loop or silently "present" by the container
membership test — is a silent no-op, not a crash).  The walk mutates nothing
before a crash, because a crash only happens on pre-existing (hence never
freshly created) non-dictionary entries, `setdefault` on a present key does
not mutate, and the value write loop mutates nothing before raising. -/
def mergeAt [PyContainer α] : List (String × Node α) → List String → List (String × Node α) →
    Option (List (String × Node α))
  | d, [], dfs => some (writeDefaults d dfs)
  | d, s :: rest, dfs =>
      match getEntry d s with
      | some (Node.dict sub) =>
          match mergeAt sub rest dfs with
          | some sub2 => some (setEntry d s (Node.dict sub2))
          | none => none
      | some (Node.value v) =>
          match rest with
          | [] => if valueWriteLoop v dfs then some d else none
          | _ :: _ => none
      | none =>
          match mergeAt ([] : List (String × Node α)) rest dfs with
          | some sub2 => some (setEntry d s (Node.dict sub2))
          | none => none

/-- Merging a defaults mapping at a dotted path (entry.py lines 55-63,
i.e. spec `merge_defaults`). -/
def mergeDefaults [PyContainer α] (t : List (String × Node α)) (path : String)
    (dfs : List (String × Node α)) : Option (List (String × Node α)) :=
  mergeAt t (pathSegments path) dfs

/-- Python's `name.startswith('_')`. -/
def isPrivateName (s : String) : Bool :=
  s.data.head? = some '_'

/-- A configuration entry class as handed to the metaclass: its name, the
module it is defined in, the `path` metaclass argument (stored by `__new__` as
`_ConfigEntryMeta__path_override`), the public-relevant class body dictionary
and the annotation names. -/
structure EntryDef (α : Type) where
  name : String
  module : String
  path_override : Option String
  dict_ : List (String × Node α)
  annotations : List String

/-- Entry.py line 47: `cls.__path = cls.__path_override or cls.__module__`.
Python `or` falls back on any falsy value, so an empty-string override also
resolves to the module name. -/
def resolvedPath (e : EntryDef α) : String :=
  match e.path_override with
  | some p => if p = "" then e.module else p
  | none => e.module

/-- Entry.py lines 51-53: the class-body items whose keys do not start with an
underscore (this drops `__module__`, `__qualname__`,
`_ConfigEntryMeta__path_override`, and any private attribute). -/
def publicConfiguration (e : EntryDef α) : List (String × Node α) :=
  e.dict_.filter (fun kv => !(isPrivateName kv.1))

/-- The registry state: `global_configuration` and `configuration_for_module`
are the fields of `Registry.__init__` (_registry.py lines 16-18);
`used_paths` is the module-level set of claimed paths imported by entry.py
(its initialiser is not part of the given `_registry.py`; modelled from the
spec as the set of paths of currently registered entries, initially empty). -/
structure RegistryState (α : Type) where
  global_configuration : List (String × Node α)
  used_paths : List String
  configuration_for_module : List (String × String)

/-- Python `set.add`: insert the path if it is not already present. -/
def addPath (paths : List String) (p : String) : List String :=
  if p ∈ paths then paths else paths ++ [p]

/-- `_ConfigEntryMeta._register_entry` (entry.py lines 45-65): resolve the
path, raise `PathConflict` if it is already claimed, merge the public class
body into the tree with fill-if-absent semantics, and claim the path.
`configuration_for_module` is not touched by this code. -/
def registerEntry [PyContainer α] (st : RegistryState α) (e : EntryDef α) :
    Except RegError (RegistryState α) :=
  let path := resolvedPath e
  if path ∈ st.used_paths then
    .error .pathConflict
  else
    match mergeAt st.global_configuration (pathSegments path) (publicConfiguration e) with
    | none => .error .pyTypeError
    | some t2 =>
        .ok { st with global_configuration := t2, used_paths := addPath st.used_paths path }

/-- Entry.py lines 69-71: the public names collected from
`chain(cls.__dict__.keys(), cls.__annotations__)` (duplicates are kept, as in
the source). -/
def definedAttributes (e : EntryDef α) : List String :=
  (e.dict_.map Prod.fst ++ e.annotations).filter (fun n => !(isPrivateName n))

/-- Entry.py lines 73-77: the validation loop raises on the first attribute
for which `get_attribute` fails (either error kind is caught); `none` means
every attribute resolved. -/
def firstUndefined (t : List (String × Node α)) (path : String) :
    List String → Option String
  | [] => none
  | a :: rest =>
      match getAttribute t path a with
      | .ok _ => firstUndefined t path rest
      | .error _ => some a

/-- `_ConfigEntryMeta.__init__` (entry.py lines 79-90): run
`_register_entry`, then `_check_undefined_entries`.  The second component is
the registry state after the definition attempt: unchanged when the conflict
check fails (nothing was mutated yet), and the post-registration state when
validation fails (the claim and the merged defaults are not undone). -/
def defineEntry [PyContainer α] (st : RegistryState α) (e : EntryDef α) :
    Except RegError Unit × RegistryState α :=
  match registerEntry st e with
  | .error err => (.error err, st)
  | .ok st2 =>
      match firstUndefined st2.global_configuration (resolvedPath e) (definedAttributes e) with
      | some a => (.error (.configurationKeyError a), st2)
      | none => (.ok (), st2)

/-- Outcome of an attribute read through the metaclass: either delegated to
the normal class-attribute lookup (underscore names) or resolved against the
registry tree. -/
inductive ReadResult (α : Type) where
  | classLookup
  | resolved : Except GetErr (Node α) → ReadResult α

/-- `_ConfigEntryMeta.__getattribute__` (entry.py lines 16-32): names starting
with an underscore use the normal lookup; every other read is
`get_attribute(cls.__path, name)` against the shared tree. -/
def metaGetattribute (st : RegistryState α) (path name : String) : ReadResult α :=
  if isPrivateName name then .classLookup
  else .resolved (getAttribute st.global_configuration path name)

/-- Modelled from the spec: the external loader's override write (spec
section 6, "set regardless of presence"), the primitive that is not part of
this core.  It walks the segments creating missing nodes and sets the leaf
name unconditionally; like the merge walk it cannot cross a plain value. -/
def setValueAt : List (String × Node α) → List String → String → α →
    Option (List (String × Node α))
  | d, [], name, v => some (setEntry d name (Node.value v))
  | d, s :: rest, name, v =>
      match getEntry d s with
      | some (Node.dict sub) =>
          match setValueAt sub rest name v with
          | some sub2 => some (setEntry d s (Node.dict sub2))
          | none => none
      | some (Node.value _) => none
      | none =>
          match setValueAt ([] : List (String × Node α)) rest name v with
          | some sub2 => some (setEntry d s (Node.dict sub2))
          | none => none

/-- The right operand of `__eq__`: another entry class or any non-entry
value. -/
inductive Operand (α : Type) where
  | entry : EntryDef α → Operand α
  | nonEntry

/-- Result of Python `__eq__`: a boolean, or `NotImplemented`. -/
inductive EqOutcome where
  | boolean : Bool → EqOutcome
  | notImplemented
deriving DecidableEq

/-- `_ConfigEntryMeta.__eq__` (entry.py lines 103-107): `NotImplemented` for a
non-entry operand, otherwise comparison of the resolved paths. -/
def metaEq (e1 : EntryDef α) : Operand α → EqOutcome
  | .entry e2 => .boolean (resolvedPath e1 == resolvedPath e2)
  | .nonEntry => .notImplemented

/-- Attribute names present on a registered entry class for the plain
(underscore-branch) lookup used by `hasattr`: line 47 of entry.py sets
`cls.__path`, which Python name-mangles (the statement occurs inside the body
of `_ConfigEntryMeta`) to `_ConfigEntryMeta__path`; `__new__` stores
`_ConfigEntryMeta__path_override` (line 41); the class body contributes its
own keys (identifiers with two leading underscores in a class body are
likewise mangled with that class's name, so none of them is literally
`__path`); the standard inherited attributes are double-underscore names such
as `__module__`, `__dict__`, `__init__`, none of which is `__path`. -/
def classAttributeNames (e : EntryDef α) : List String :=
  ["_ConfigEntryMeta__path", "_ConfigEntryMeta__path_override",
   "__module__", "__qualname__", "__doc__", "__dict__", "__init__"] ++
    e.dict_.map Prod.fst

/-- Python `repr` of a string (the `!r` conversion): the text in quotes. -/
def pyStrRepr (s : String) : String :=
  String.mk ('\'' :: s.data ++ ['\''])

/-- `_ConfigEntryMeta.__repr__` (entry.py lines 96-101).  The guard is
`hasattr(cls, '__path')`: a string literal is not name-mangled, so it tests
for an attribute literally called `__path` (looked up through the normal
underscore branch of `__getattribute__`). -/
def reprMeta (e : EntryDef α) : String :=
  if "__path" ∈ classAttributeNames e then
    "<_ConfigEntryMeta " ++ e.name ++ " at " ++ pyStrRepr (resolvedPath e) ++ ">"
  else
    "<_ConfigEntryMeta " ++ e.name ++ ">"

/-- `ConfigEntry.__init__` (entry.py lines 122-124): the body unconditionally
raises `InvalidOperation`; no instance is ever produced. -/
def configEntryInit (_self : Unit) : Except RegError Unit :=
  .error .invalidOperation

/-! ## Dictionary lemmas -/

theorem getEntry_setEntry_self (d : List (String × Node α)) (k : String) (v : Node α) :
    getEntry (setEntry d k v) k = some v := by
  induction d with
  | nil => simp [setEntry, getEntry]
  | cons hd tl ih =>
      obtain ⟨k1, v1⟩ := hd
      by_cases h : k1 = k
      · simp [setEntry, h, getEntry]
      · simp [setEntry, h, getEntry, ih]

theorem getEntry_setEntry_ne (d : List (String × Node α)) (k : String) (v : Node α)
    (k' : String) (h : k' ≠ k) : getEntry (setEntry d k v) k' = getEntry d k' := by
  induction d with
  | nil => simp [setEntry, getEntry, Ne.symm h]
  | cons hd tl ih =>
      obtain ⟨k1, v1⟩ := hd
      by_cases hk : k1 = k
      · subst hk
        simp [setEntry, getEntry, Ne.symm h]
      · by_cases hk' : k1 = k'
        · simp [setEntry, hk, getEntry, hk', h]
        · simp [setEntry, hk, getEntry, hk', ih]

theorem walkGet_nil_dict (segs : List String) (n : String) :
    walkGet ([] : List (String × Node α)) segs n = .error .configurationKeyError := by
  cases segs <;> rfl

theorem getEntry_writeDefaults_present (dfs : List (String × Node α)) :
    ∀ (d : List (String × Node α)) (n : String) (v : Node α),
      getEntry d n = some v → getEntry (writeDefaults d dfs) n = some v := by
  induction dfs with
  | nil => intro d n v h; simpa [writeDefaults] using h
  | cons hd rest ih =>
      intro d n v h
      obtain ⟨k1, v1⟩ := hd
      by_cases hk : k1 = n
      · have hg : getEntry d k1 = some v := by rw [hk]; exact h
        simp only [writeDefaults, hg]
        exact ih d n v h
      · cases hg : getEntry d k1 with
        | some w =>
            simp only [writeDefaults, hg]
            exact ih d n v h
        | none =>
            simp only [writeDefaults, hg]
            apply ih
            rw [getEntry_setEntry_ne d k1 v1 n (Ne.symm hk)]
            exact h

theorem getEntry_writeDefaults_not_mem (dfs : List (String × Node α)) :
    ∀ (d : List (String × Node α)) (n : String),
      n ∉ dfs.map Prod.fst → getEntry (writeDefaults d dfs) n = getEntry d n := by
  induction dfs with
  | nil => intro d n _; rfl
  | cons hd rest ih =>
      intro d n h
      obtain ⟨k1, v1⟩ := hd
      simp only [List.map_cons, List.mem_cons] at h
      push_neg at h
      obtain ⟨hne, hrest⟩ := h
      simp only [writeDefaults]
      cases hg : getEntry d k1 with
      | some w => exact ih d n hrest
      | none =>
          rw [ih (setEntry d k1 v1) n hrest]
          exact getEntry_setEntry_ne d k1 v1 n hne

/-! ## Merge lemmas -/

theorem mergeAt_fill_absent [PyContainer α] (v : Node α) :
    ∀ (segs : List String) (d d2 : List (String × Node α)) (n : String),
      walkGet d segs n = .error .configurationKeyError →
      mergeAt d segs [(n, v)] = some d2 →
      walkGet d2 segs n = .ok v := by
  intro segs
  induction segs with
  | nil =>
      intro d d2 n h1 h2
      simp only [mergeAt, Option.some.injEq] at h2
      subst h2
      simp only [walkGet] at h1 ⊢
      cases hget : getEntry d n with
      | some w => rw [hget] at h1; simp at h1
      | none =>
          simp only [writeDefaults, hget]
          rw [getEntry_setEntry_self]
  | cons s rest ih =>
      intro d d2 n h1 h2
      cases hs : getEntry d s with
      | some node =>
          cases node with
          | dict sub =>
              simp only [walkGet, hs] at h1
              simp only [mergeAt, hs] at h2
              cases hm : mergeAt sub rest [(n, v)] with
              | none => rw [hm] at h2; exact Option.noConfusion h2
              | some sub2 =>
                  simp only [hm, Option.some.injEq] at h2
                  subst h2
                  simp only [walkGet, getEntry_setEntry_self]
                  exact ih sub sub2 n h1 hm
          | value w =>
              simp only [walkGet, hs] at h1
              simp at h1
      | none =>
          simp only [mergeAt, hs] at h2
          cases hm : mergeAt ([] : List (String × Node α)) rest [(n, v)] with
          | none => rw [hm] at h2; exact Option.noConfusion h2
          | some sub2 =>
              simp only [hm, Option.some.injEq] at h2
              subst h2
              simp only [walkGet, getEntry_setEntry_self]
              exact ih ([] : List (String × Node α)) sub2 n (walkGet_nil_dict rest n) hm

theorem mergeAt_preserve_present [PyContainer α] :
    ∀ (segs : List String) (d : List (String × Node α)) (n : String) (v : Node α)
      (dfs : List (String × Node α)),
      walkGet d segs n = .ok v →
      ∃ d2, mergeAt d segs dfs = some d2 ∧ walkGet d2 segs n = .ok v := by
  intro segs
  induction segs with
  | nil =>
      intro d n v dfs h
      refine ⟨writeDefaults d dfs, rfl, ?_⟩
      simp only [walkGet] at h ⊢
      cases hget : getEntry d n with
      | none => rw [hget] at h; simp at h
      | some w =>
          rw [hget] at h
          simp only [Except.ok.injEq] at h
          subst h
          rw [getEntry_writeDefaults_present dfs d n w hget]
  | cons s rest ih =>
      intro d n v dfs h
      simp only [walkGet] at h
      cases hs : getEntry d s with
      | none => rw [hs] at h; simp at h
      | some node =>
          cases node with
          | value w => rw [hs] at h; simp at h
          | dict sub =>
              rw [hs] at h
              obtain ⟨sub2, hm, hw⟩ := ih sub n v dfs h
              refine ⟨setEntry d s (Node.dict sub2), ?_, ?_⟩
              · simp only [mergeAt, hs, hm]
              · simp only [walkGet]
                rw [getEntry_setEntry_self]
                exact hw

theorem mergeAt_preserve_absent [PyContainer α] :
    ∀ (segs : List String) (d d2 : List (String × Node α)) (x : String)
      (dfs : List (String × Node α)),
      x ∉ dfs.map Prod.fst →
      isErr (walkGet d segs x) = true →
      mergeAt d segs dfs = some d2 →
      isErr (walkGet d2 segs x) = true := by
  intro segs
  induction segs with
  | nil =>
      intro d d2 x dfs hmem h1 h2
      simp only [mergeAt, Option.some.injEq] at h2
      subst h2
      simp only [walkGet] at h1 ⊢
      rw [getEntry_writeDefaults_not_mem dfs d x hmem]
      exact h1
  | cons s rest ih =>
      intro d d2 x dfs hmem h1 h2
      cases hs : getEntry d s with
      | some node =>
          cases node with
          | dict sub =>
              simp only [walkGet, hs] at h1
              simp only [mergeAt, hs] at h2
              cases hm : mergeAt sub rest dfs with
              | none => rw [hm] at h2; exact Option.noConfusion h2
              | some sub2 =>
                  simp only [hm, Option.some.injEq] at h2
                  subst h2
                  simp only [walkGet, getEntry_setEntry_self]
                  exact ih sub sub2 x dfs hmem h1 hm
          | value w =>
              simp only [mergeAt, hs] at h2
              cases rest with
              | nil =>
                  cases hvl : valueWriteLoop w dfs with
                  | true =>
                      simp only [hvl, if_true, Option.some.injEq] at h2
                      subst h2
                      simp only [walkGet, hs, isErr]
                  | false =>
                      simp only [hvl] at h2
                      simp at h2
              | cons _ _ => simp at h2
      | none =>
          simp only [mergeAt, hs] at h2
          cases hm : mergeAt ([] : List (String × Node α)) rest dfs with
          | none => rw [hm] at h2; exact Option.noConfusion h2
          | some sub2 =>
              simp only [hm, Option.some.injEq] at h2
              subst h2
              simp only [walkGet, getEntry_setEntry_self]
              apply ih ([] : List (String × Node α)) sub2 x dfs hmem _ hm
              rw [walkGet_nil_dict]
              rfl

theorem setValueAt_get :
    ∀ (segs : List String) (d d2 : List (String × Node α)) (n : String) (v : α),
      setValueAt d segs n v = some d2 →
      walkGet d2 segs n = .ok (Node.value v) := by
  intro segs
  induction segs with
  | nil =>
      intro d d2 n v h
      simp only [setValueAt, Option.some.injEq] at h
      subst h
      simp only [walkGet]
      rw [getEntry_setEntry_self]
  | cons s rest ih =>
      intro d d2 n v h
      cases hs : getEntry d s with
      | some node =>
          cases node with
          | dict sub =>
              simp only [setValueAt, hs] at h
              cases hm : setValueAt sub rest n v with
              | none => rw [hm] at h; exact Option.noConfusion h
              | some sub2 =>
                  simp only [hm, Option.some.injEq] at h
                  subst h
                  simp only [walkGet, getEntry_setEntry_self]
                  exact ih sub sub2 n v hm
          | value w => rw [setValueAt, hs] at h; exact Option.noConfusion h
      | none =>
          simp only [setValueAt, hs] at h
          cases hm : setValueAt ([] : List (String × Node α)) rest n v with
          | none => rw [hm] at h; exact Option.noConfusion h
          | some sub2 =>
              simp only [hm, Option.some.injEq] at h
              subst h
              simp only [walkGet, getEntry_setEntry_self]
              exact ih ([] : List (String × Node α)) sub2 n v hm

/-! ## Registration lemmas -/

theorem mem_addPath_self (l : List String) (p : String) : p ∈ addPath l p := by
  by_cases h : p ∈ l
  · simp [addPath, h]
  · simp [addPath, h]

theorem registerEntry_ok_spec [PyContainer α] (st : RegistryState α) (e : EntryDef α) (st2 : RegistryState α)
    (h : registerEntry st e = .ok st2) :
    resolvedPath e ∉ st.used_paths ∧
    mergeAt st.global_configuration (pathSegments (resolvedPath e)) (publicConfiguration e) =
      some st2.global_configuration ∧
    st2.used_paths = addPath st.used_paths (resolvedPath e) ∧
    st2.configuration_for_module = st.configuration_for_module := by
  by_cases hmem : resolvedPath e ∈ st.used_paths
  · rw [registerEntry] at h
    simp only [if_pos hmem] at h
    exact Except.noConfusion h
  · rw [registerEntry] at h
    simp only [if_neg hmem] at h
    cases hm : mergeAt st.global_configuration (pathSegments (resolvedPath e))
        (publicConfiguration e) with
    | none => rw [hm] at h; exact Except.noConfusion h
    | some t2 =>
        rw [hm] at h
        simp only [Except.ok.injEq] at h
        subst h
        exact ⟨hmem, rfl, rfl, rfl⟩

theorem registerEntry_conflict_iff [PyContainer α] (st : RegistryState α) (e : EntryDef α) :
    registerEntry st e = .error .pathConflict ↔ resolvedPath e ∈ st.used_paths := by
  by_cases hmem : resolvedPath e ∈ st.used_paths
  · rw [registerEntry]
    simp [if_pos hmem, hmem]
  · rw [registerEntry]
    simp only [if_neg hmem]
    cases hm : mergeAt st.global_configuration (pathSegments (resolvedPath e))
        (publicConfiguration e) <;> simp [hmem]

theorem defineEntry_of_conflict [PyContainer α] (st : RegistryState α) (e : EntryDef α)
    (h : resolvedPath e ∈ st.used_paths) :
    defineEntry st e = (.error .pathConflict, st) := by
  have hr : registerEntry st e = .error .pathConflict :=
    (registerEntry_conflict_iff st e).mpr h
  rw [defineEntry, hr]

theorem defineEntry_snd_of_ok [PyContainer α] (st : RegistryState α) (e : EntryDef α) (st2 : RegistryState α)
    (h : registerEntry st e = .ok st2) : (defineEntry st e).2 = st2 := by
  rw [defineEntry, h]
  cases hf : firstUndefined st2.global_configuration (resolvedPath e) (definedAttributes e) <;>
    simp [hf]

theorem defineEntry_conflict_iff [PyContainer α] (st : RegistryState α) (e : EntryDef α) :
    (defineEntry st e).1 = .error .pathConflict ↔ resolvedPath e ∈ st.used_paths := by
  rw [defineEntry]
  cases hr : registerEntry st e with
  | error err =>
      have hiff := registerEntry_conflict_iff st e
      rw [hr] at hiff
      simp only [Except.error.injEq] at hiff
      simpa using hiff
  | ok st2 =>
      have hmem : resolvedPath e ∉ st.used_paths := by
        intro hm
        have hc := (registerEntry_conflict_iff st e).mpr hm
        rw [hr] at hc
        exact Except.noConfusion hc
      cases hf : firstUndefined st2.global_configuration (resolvedPath e)
          (definedAttributes e) <;> simp [hmem, hf]

theorem firstUndefined_finds (t : List (String × Node α)) (p : String) :
    ∀ (l : List String) (x : String), x ∈ l → isErr (getAttribute t p x) = true →
      ∃ a, firstUndefined t p l = some a ∧ isErr (getAttribute t p a) = true := by
  intro l
  induction l with
  | nil => intro x hx _; exact absurd hx (List.not_mem_nil x)
  | cons a rest ih =>
      intro x hx herr
      cases hg : getAttribute t p a with
      | ok w =>
          have hxr : x ∈ rest := by
            rcases List.mem_cons.mp hx with h | h
            · rw [h, hg] at herr; simp [isErr] at herr
            · exact h
          obtain ⟨b, hb1, hb2⟩ := ih x hxr herr
          refine ⟨b, ?_, hb2⟩
          simp only [firstUndefined, hg]
          exact hb1
      | error er =>
          exact ⟨a, by simp only [firstUndefined, hg], by rw [hg]; rfl⟩

/-! ## Claim theorems -/

/-- Head matching of character lists: does the second list start with the
first. -/
def leadMatch : List Char → List Char → Bool
  | [], _ => true
  | _ :: _, [] => false
  | a :: as, b :: bs => a = b && leadMatch as bs

/-- Python's substring test `needle in hay` on str values. -/
def hasSub (needle : List Char) : List Char → Bool
  | [] => leadMatch needle []
  | c :: rest => leadMatch needle (c :: rest) || hasSub needle rest

/-- A concrete Python value domain for the C1 counterexample: ints, for which
the membership test raises `TypeError`, and strs, for which `k in v` is the
substring test (and item assignment raises `TypeError`). -/
inductive PyVal where
  | int : Nat → PyVal
  | str : String → PyVal

instance : PyContainer PyVal :=
  ⟨fun v k =>
    match v with
    | .int _ => none
    | .str s => some (hasSub k.data s.data)⟩

/-- The registry tree of the C1 counterexample: an entry at path `"pkg"`
contributed the str default `mod = "xy"`. -/
def c1CtrTree : List (String × Node PyVal) :=
  [("pkg", Node.dict [("mod", Node.value (PyVal.str "xy"))])]

/-- The entry whose definition from the empty registry produces
`c1CtrTree`. -/
def c1CtrEntry : EntryDef PyVal :=
  ⟨"P", "pkg", none, [("mod", Node.value (PyVal.str "xy"))], []⟩

/-- C1 counterexample: the tree is reachable (one successful definition from
the empty registry).  `get_attribute("pkg.mod", "x")` fails before the merge;
merging `{x: 7}` at `"pkg.mod"` completes with no error and changes nothing —
the walk ends on the str leaf `"xy"` and `"x" not in "xy"` is `False` (a
silently true substring test), so the write is skipped — and afterwards (the
merge returned the same tree) the read still fails with `ConfigurationError`
instead of returning `7`, refuting the claim as stated. -/
theorem c1_counterexample :
    (defineEntry (⟨[], [], []⟩ : RegistryState PyVal) c1CtrEntry).2.global_configuration =
      c1CtrTree ∧
    getAttribute c1CtrTree "pkg.mod" "x" = .error .configurationError ∧
    mergeDefaults c1CtrTree "pkg.mod" [("x", Node.value (PyVal.int 7))] = some c1CtrTree ∧
    getAttribute c1CtrTree "pkg.mod" "x" = .error .configurationError :=
  ⟨rfl, rfl, rfl, rfl⟩

/-- C1 (amended): Fill-if-absent merge.  For every tree, path `P`, name `n`
and default `d`: if `get_attribute(P, n)` fails with `ConfigurationKeyError`
before the merge of `{n: d}` at `P` (a missing segment or missing leaf name —
not a `ConfigurationError` from a plain value blocking the path, where the
Python merge can complete as a silent no-op without writing), then after a
completing merge it returns `d`; if it succeeded before with `v`, the merge
completes without error and the read still returns `v` — hence merging
`{n: d1}` then `{n: d2}` at the same path and name leaves `d1`, and the
second, no-op write raises no error. -/
theorem c1_fill_if_absent [PyContainer α] (t : List (String × Node α)) (P n : String)
    (d : Node α) :
    (getAttribute t P n = .error .configurationKeyError →
      ∀ t2, mergeDefaults t P [(n, d)] = some t2 → getAttribute t2 P n = .ok d) ∧
    (∀ v, getAttribute t P n = .ok v →
      ∃ t2, mergeDefaults t P [(n, d)] = some t2 ∧ getAttribute t2 P n = .ok v) ∧
    (∀ (d2 : Node α) t2, getAttribute t P n = .error .configurationKeyError →
      mergeDefaults t P [(n, d)] = some t2 →
      ∃ t3, mergeDefaults t2 P [(n, d2)] = some t3 ∧ getAttribute t3 P n = .ok d) := by
  refine ⟨?_, ?_, ?_⟩
  · intro h1 t2 h2
    exact mergeAt_fill_absent d (pathSegments P) t t2 n h1 h2
  · intro v hv
    exact mergeAt_preserve_present (pathSegments P) t n v [(n, d)] hv
  · intro d2 t2 h1 h2
    have hok : getAttribute t2 P n = .ok d := mergeAt_fill_absent d (pathSegments P) t t2 n h1 h2
    exact mergeAt_preserve_present (pathSegments P) t2 n d [(n, d2)] hok

/-- Witness for C1: on the empty tree, `get_attribute("a.b", "x")` fails with
`ConfigurationKeyError`; merging `{x: 3}` at `"a.b"` makes it return `3`, and
the later merge of `{x: 5}` completes and leaves the value `3`. -/
theorem c1_fill_if_absent_witness :
    ∃ t2, mergeDefaults ([] : List (String × Node Nat)) "a.b" [("x", Node.value 3)] = some t2 ∧
      getAttribute t2 "a.b" "x" = .ok (Node.value 3) ∧
      ∃ t3, mergeDefaults t2 "a.b" [("x", Node.value 5)] = some t3 ∧
        getAttribute t3 "a.b" "x" = .ok (Node.value 3) := by
  refine ⟨[("a", Node.dict [("b", Node.dict [("x", Node.value 3)])])], rfl, ?_, ?_⟩
  · exact (c1_fill_if_absent [] "a.b" "x" (Node.value 3)).1 rfl _ rfl
  · exact (c1_fill_if_absent [] "a.b" "x" (Node.value 3)).2.2 (Node.value 5) _ rfl rfl

/-- C2: Conflict detection.  Registering an entry whose resolved path is
already in `used_paths` raises `PathConflict`; registering at a path not in
`used_paths` never raises `PathConflict`; and after any successful
registration a second entry resolving to the same path raises
`PathConflict`. -/
theorem c2_conflict_detection [PyContainer α] (st : RegistryState α) (e : EntryDef α) :
    (resolvedPath e ∈ st.used_paths → (defineEntry st e).1 = .error .pathConflict) ∧
    (resolvedPath e ∉ st.used_paths → ¬ (defineEntry st e).1 = .error .pathConflict) ∧
    (∀ st2 e2, registerEntry st e = .ok st2 → resolvedPath e2 = resolvedPath e →
      (defineEntry st2 e2).1 = .error .pathConflict) := by
  refine ⟨?_, ?_, ?_⟩
  · intro h
    exact (defineEntry_conflict_iff st e).mpr h
  · intro h hc
    exact h ((defineEntry_conflict_iff st e).mp hc)
  · intro st2 e2 hr he
    apply (defineEntry_conflict_iff st2 e2).mpr
    rw [he]
    obtain ⟨_, _, hup, _⟩ := registerEntry_ok_spec st e st2 hr
    rw [hup]
    exact mem_addPath_self _ _

/-- Concrete fixtures for the C2 witness. -/
def c2St0 : RegistryState Nat := ⟨[], [], []⟩

def c2EntryA : EntryDef Nat := ⟨"A", "m2", none, [("n", Node.value 1)], []⟩

def c2EntryB : EntryDef Nat := ⟨"B", "m2", none, [("k", Node.value 2)], []⟩

def c2St1 : RegistryState Nat := ⟨[("m2", Node.dict [("n", Node.value 1)])], ["m2"], []⟩

/-- Witness for C2: from the empty registry, registering at `"m2"` raises no
`PathConflict`; a second entry resolving to `"m2"` then does. -/
theorem c2_conflict_detection_witness :
    ¬ (defineEntry c2St0 c2EntryA).1 = .error .pathConflict ∧
    (defineEntry c2St1 c2EntryB).1 = .error .pathConflict :=
  ⟨(c2_conflict_detection c2St0 c2EntryA).2.1 (by decide),
   (c2_conflict_detection c2St0 c2EntryA).2.2 c2St1 c2EntryB rfl rfl⟩

/-- C3: Fail-fast validation.  If registration completes for an entry with an
annotation-only public attribute `x` (no default value in the class body) for
which no value resolves at the resolved path, then the definition fails at
definition time with `ConfigurationKeyError`, naming an attribute that has no
defined value. -/
theorem c3_fail_fast_validation [PyContainer α] (st : RegistryState α) (e : EntryDef α) (st2 : RegistryState α)
    (x : String)
    (hreg : registerEntry st e = .ok st2)
    (hann : x ∈ e.annotations)
    (hpub : isPrivateName x = false)
    (honly : x ∉ e.dict_.map Prod.fst)
    (hmiss : isErr (getAttribute st.global_configuration (resolvedPath e) x) = true) :
    ∃ a, (defineEntry st e).1 = .error (.configurationKeyError a) ∧
      isErr (getAttribute st2.global_configuration (resolvedPath e) a) = true := by
  obtain ⟨hnmem, hmerge, hup, hcfm⟩ := registerEntry_ok_spec st e st2 hreg
  have hxpub : x ∉ (publicConfiguration e).map Prod.fst := by
    intro hx
    apply honly
    obtain ⟨⟨k, v⟩, hkmem, hkeq⟩ := List.mem_map.mp hx
    exact List.mem_map.mpr ⟨(k, v), (List.mem_filter.mp hkmem).1, hkeq⟩
  have hmiss2 : isErr (getAttribute st2.global_configuration (resolvedPath e) x) = true :=
    mergeAt_preserve_absent (pathSegments (resolvedPath e)) st.global_configuration
      st2.global_configuration x (publicConfiguration e) hxpub hmiss hmerge
  have hxdef : x ∈ definedAttributes e := by
    apply List.mem_filter.mpr
    refine ⟨List.mem_append.mpr (Or.inr hann), ?_⟩
    simp [hpub]
  obtain ⟨a, ha1, ha2⟩ :=
    firstUndefined_finds st2.global_configuration (resolvedPath e) (definedAttributes e)
      x hxdef hmiss2
  refine ⟨a, ?_, ha2⟩
  rw [defineEntry, hreg]
  simp [ha1]

/-- Concrete fixtures for the C3 witness. -/
def c3St : RegistryState Nat := ⟨[], [], []⟩

def c3Entry : EntryDef Nat := ⟨"C3", "m3", none, [], ["x"]⟩

def c3St2 : RegistryState Nat := ⟨[("m3", Node.dict [])], ["m3"], []⟩

/-- Witness for C3: an entry at `"m3"` whose only attribute is the
annotation-only `x` fails at definition time with `ConfigurationKeyError`. -/
theorem c3_fail_fast_validation_witness :
    ∃ a, (defineEntry c3St c3Entry).1 = .error (.configurationKeyError a) ∧
      isErr (getAttribute c3St2.global_configuration (resolvedPath c3Entry) a) = true :=
  c3_fail_fast_validation c3St c3Entry c3St2 "x" rfl (by decide) rfl (by decide) rfl

/-- C4: Live resolution.  A read of a public attribute on an entry with path
`P` is exactly `get_attribute(P, name)` against the shared registry tree, and
after an external loader writes a new value for `(P, name)` directly into the
tree, the same read returns the new value — no cache, no invalidation. -/
theorem c4_live_resolution (st : RegistryState α) (P n : String)
    (h : isPrivateName n = false) :
    metaGetattribute st P n = .resolved (getAttribute st.global_configuration P n) ∧
    (∀ (v : α) t2, setValueAt st.global_configuration (pathSegments P) n v = some t2 →
      metaGetattribute { st with global_configuration := t2 } P n =
        .resolved (.ok (Node.value v))) := by
  constructor
  · rw [metaGetattribute, if_neg (by simp [h])]
  · intro v t2 hset
    rw [metaGetattribute, if_neg (by simp [h])]
    have hres := setValueAt_get (pathSegments P) st.global_configuration t2 n v hset
    rw [getAttribute, hres]

/-- Concrete fixture for the C4 witness. -/
def c4St : RegistryState Nat := ⟨[("m", Node.dict [("n", Node.value 1)])], ["m"], []⟩

/-- Witness for C4: at path `"m"`, attribute `"n"` reads `1` from the shared
tree; after the loader overwrites the tree value with `5`, the same read
returns `5`. -/
theorem c4_live_resolution_witness :
    metaGetattribute c4St "m" "n" = .resolved (.ok (Node.value 1)) ∧
    metaGetattribute { c4St with
        global_configuration := [("m", Node.dict [("n", Node.value 5)])] } "m" "n" =
      .resolved (.ok (Node.value 5)) := by
  constructor
  · rw [(c4_live_resolution c4St "m" "n" rfl).1]
    rfl
  · exact (c4_live_resolution c4St "m" "n" rfl).2 5 _ rfl

/-- C6: Validation failure leaves the path claimed.  If registration completed
(conflict check passed, defaults merged) but definition-time validation failed
with `ConfigurationKeyError`, the resolved path stays in `used_paths`, so any
later entry resolving to the same path raises `PathConflict`. -/
theorem c6_validation_failure_keeps_claim [PyContainer α] (st : RegistryState α) (e : EntryDef α)
    (st2 : RegistryState α) (a : String)
    (hreg : registerEntry st e = .ok st2)
    (_hfail : (defineEntry st e).1 = .error (.configurationKeyError a)) :
    resolvedPath e ∈ (defineEntry st e).2.used_paths ∧
    ∀ e2, resolvedPath e2 = resolvedPath e →
      (defineEntry (defineEntry st e).2 e2).1 = .error .pathConflict := by
  have hsnd := defineEntry_snd_of_ok st e st2 hreg
  obtain ⟨_, _, hup, _⟩ := registerEntry_ok_spec st e st2 hreg
  have hmem : resolvedPath e ∈ (defineEntry st e).2.used_paths := by
    rw [hsnd, hup]
    exact mem_addPath_self _ _
  refine ⟨hmem, ?_⟩
  intro e2 he2
  apply (defineEntry_conflict_iff _ e2).mpr
  rw [he2]
  exact hmem

/-- Concrete fixtures for the C6 witness. -/
def c6St : RegistryState Nat := ⟨[], [], []⟩

def c6Entry : EntryDef Nat := ⟨"C6", "m6", none, [], ["y"]⟩

def c6Entry2 : EntryDef Nat := ⟨"C6b", "m6", none, [("y", Node.value 1)], []⟩

def c6St2 : RegistryState Nat := ⟨[("m6", Node.dict [])], ["m6"], []⟩

/-- Witness for C6: the entry at `"m6"` fails validation on its annotation-only
attribute `y`, yet `"m6"` stays claimed and a second entry at `"m6"`
conflicts. -/
theorem c6_validation_failure_keeps_claim_witness :
    "m6" ∈ (defineEntry c6St c6Entry).2.used_paths ∧
    (defineEntry (defineEntry c6St c6Entry).2 c6Entry2).1 = .error .pathConflict := by
  have h := c6_validation_failure_keeps_claim c6St c6Entry c6St2 "y" rfl rfl
  exact ⟨h.1, h.2 c6Entry2 rfl⟩

/-- C10: Atomicity of the conflict branch.  When the resolved path is already
claimed, definition fails with `PathConflict` and the registry state is
returned completely unchanged: no tree node added, no leaf value written,
`used_paths` unmodified (the conflict check runs before any mutation). -/
theorem c10_conflict_branch_atomic [PyContainer α] (st : RegistryState α) (e : EntryDef α)
    (h : resolvedPath e ∈ st.used_paths) :
    (defineEntry st e).1 = .error .pathConflict ∧
    (defineEntry st e).2.global_configuration = st.global_configuration ∧
    (defineEntry st e).2.used_paths = st.used_paths ∧
    (defineEntry st e).2 = st := by
  have h2 := defineEntry_of_conflict st e h
  rw [h2]
  exact ⟨rfl, rfl, rfl, rfl⟩

/-- Concrete fixtures for the C10 witness. -/
def c10St : RegistryState Nat := ⟨[("m", Node.dict [("n", Node.value 1)])], ["m"], []⟩

def c10Entry : EntryDef Nat := ⟨"C", "m", none, [("z", Node.value 9)], []⟩

/-- Witness for C10: with `"m"` already claimed, a second definition at `"m"`
conflicts and leaves the registry state untouched. -/
theorem c10_conflict_branch_atomic_witness :
    (defineEntry c10St c10Entry).1 = .error .pathConflict ∧
    (defineEntry c10St c10Entry).2 = c10St :=
  ⟨(c10_conflict_branch_atomic c10St c10Entry (by decide)).1,
   (c10_conflict_branch_atomic c10St c10Entry (by decide)).2.2.2⟩

/-- Concrete fixtures for C5. -/
def c5St : RegistryState Nat := ⟨[], [], []⟩

def c5Entry : EntryDef Nat := ⟨"C5", "m5", none, [("n", Node.value 1)], []⟩

def c5St2 : RegistryState Nat := ⟨[("m5", Node.dict [("n", Node.value 1)])], ["m5"], []⟩

/-- C5 counterexample: after one successful registration from the empty
registry, the claimed path `"m5"` is in `used_paths` while the key set of
`configuration_for_module` is still empty — the two are not identical sets,
because `_register_entry` never writes the owner map. -/
theorem c5_counterexample :
    ("m5" ∈ (defineEntry c5St c5Entry).2.used_paths) ∧
    (defineEntry c5St c5Entry).2.configuration_for_module.map Prod.fst = [] ∧
    ("m5" ∈ (defineEntry c5St c5Entry).2.configuration_for_module.map Prod.fst) = False := by
  refine ⟨by decide, rfl, eq_false (by decide)⟩

/-- C5 amended: `used_paths` and the key set of `configuration_for_module` are
not kept identical.  No definition step ever modifies
`configuration_for_module`, while a successful registration adds the resolved
path to `used_paths`; the two sets therefore coincide only while they were
already equal and no entry has been registered since. -/
theorem c5_owner_map_never_written [PyContainer α] (st : RegistryState α) (e : EntryDef α) :
    (defineEntry st e).2.configuration_for_module = st.configuration_for_module ∧
    (∀ st2, registerEntry st e = .ok st2 →
      st2.used_paths = addPath st.used_paths (resolvedPath e) ∧
      resolvedPath e ∈ st2.used_paths) := by
  constructor
  · cases hr : registerEntry st e with
    | error err => simp [defineEntry, hr]
    | ok st2 =>
        have hsnd := defineEntry_snd_of_ok st e st2 hr
        rw [hsnd]
        exact (registerEntry_ok_spec st e st2 hr).2.2.2
  · intro st2 hr
    obtain ⟨_, _, hup, _⟩ := registerEntry_ok_spec st e st2 hr
    exact ⟨hup, by rw [hup]; exact mem_addPath_self _ _⟩

/-- Witness for the amended C5 at the concrete registration of `"m5"`. -/
theorem c5_owner_map_never_written_witness :
    (defineEntry c5St c5Entry).2.configuration_for_module = [] ∧
    c5St2.used_paths = addPath c5St.used_paths (resolvedPath c5Entry) ∧
    resolvedPath c5Entry ∈ c5St2.used_paths := by
  have h := c5_owner_map_never_written c5St c5Entry
  have h2 := h.2 c5St2 rfl
  exact ⟨h.1, h2.1, h2.2⟩

/-- C7: Equality by path.  Comparing two entries yields `True` exactly when
their resolved dotted paths are equal strings — independent of which class
object declares them — and comparing with a non-entry value returns
`NotImplemented` rather than raising. -/
theorem c7_eq_by_path (e1 e2 : EntryDef α) :
    (metaEq e1 (Operand.entry e2) = .boolean true ↔ resolvedPath e1 = resolvedPath e2) ∧
    metaEq e1 Operand.nonEntry = .notImplemented := by
  constructor
  · simp [metaEq]
  · rfl

/-- Concrete fixtures for the C7 witness: two distinct class objects resolving
to the same path `"m7"`. -/
def c7EntryA : EntryDef Nat := ⟨"A7", "m7", none, [], []⟩

def c7EntryB : EntryDef Nat := ⟨"B7", "other7", some "m7", [("q", Node.value 2)], []⟩

/-- Witness for C7: the two distinct entries at path `"m7"` compare equal, and
comparison with a non-entry yields `NotImplemented`. -/
theorem c7_eq_by_path_witness :
    metaEq c7EntryA (Operand.entry c7EntryB) = .boolean true ∧
    metaEq c7EntryA Operand.nonEntry = .notImplemented :=
  ⟨(c7_eq_by_path c7EntryA c7EntryB).1.mpr rfl, (c7_eq_by_path c7EntryA c7EntryB).2⟩

/-- Concrete fixture for C8: a successfully registered entry class `Entry8`
whose resolved path is `"m8"`. -/
def c8Entry : EntryDef Nat := ⟨"Entry8", "m8", none, [("n", Node.value 1)], []⟩

/-- C8: the repr of a registered entry does NOT include its path.  Line 98 of
entry.py tests `hasattr(cls, '__path')` with a string literal, which is not
name-mangled, while line 47 stored the attribute under the mangled name
`_ConfigEntryMeta__path`; no attribute literally named `__path` ever exists,
so `__repr__` always takes the path-less fallback branch, contradicting the
claim that the path-formatting branch is taken for registered entries. -/
theorem c8_repr_fallback :
    reprMeta c8Entry = "<_ConfigEntryMeta Entry8>" ∧
    ((classAttributeNames c8Entry).contains "__path") = false := by
  exact ⟨by decide, by decide⟩

/-- C9: Forbidden instantiation.  `ConfigEntry.__init__` raises
`InvalidOperation` and never returns an instance. -/
theorem c9_init_raises_invalid_operation :
    ∀ s : Unit, configEntryInit s = .error .invalidOperation ∧
      isErr (configEntryInit s) = true :=
  fun _ => ⟨rfl, rfl⟩

end SmartConfig
